import Mathlib

/-!
# Verification development for the F1 Silverstone 2025 tire-adjusted pace analysis

Shallow embedding of `f1_silverstone25_analysis.py`.  The program is a linear
batch pipeline over an in-memory lap table:

* `analyze_race_overview`        — race statistics and tire-compound histogram;
* `calculate_tire_adjusted_times` — the Adjustment Engine (per-lap filtering and
  normalization);
* `analyze_segment_performance`   — the Segment Aggregator (per-segment,
  per-driver summary statistics, ranked by mean adjusted time);
* `generate_performance_summary`  — the Trend Summarizer (per-driver evolution
  of rank and gap-to-leader across segments).

Modelling conventions:

* Python floats are modelled as exact rationals (`ℚ`).  All numeric constants
  of the source (`0.1`, `80`, `200`, the compound deltas) are exactly
  representable, so the rational semantics coincides with the float semantics
  on all the concrete inputs used below.
* A pandas row is a `Lap`; a missing value (`NaN`) in a column is `none`.
* Python dicts keyed by strings are association lists with Python's insertion
  semantics: inserting an existing key overwrites in place (`dictInsert`),
  `dict.get`-style lookups are `List.find?`-based.
* `list.sort(key=...)` (Timsort, a stable sort comparing keys) is modelled by
  `List.mergeSort`, which is also a stable sort; a stable sort's output is
  uniquely determined by the key preorder, so the two agree extensionally.
* pandas `Series.mean()` / `.min()` over the nonempty qualifying-lap lists are
  `ratMean` / `ratMin`.  pandas `.std()` (sample standard deviation, `NaN` for
  fewer than two samples) is modelled by the sample *variance* `sampleVar`
  (with `none` for the `NaN` case): the standard deviation is its irrational
  square root, and no property below depends on the `consistency` field, so we
  keep the rational variance to stay computable.
-/

namespace F1

/-! ## Configuration constants (source lines 26–38) -/

/-- Tire performance deltas in seconds relative to the intermediate baseline
(the Python dict `TIRE_PERFORMANCE`, source lines 26–32). -/
def TIRE_PERFORMANCE : List (String × ℚ) :=
  [("INTERMEDIATE", 0), ("SOFT", -8), ("MEDIUM", -6), ("HARD", -4), ("WET", 3)]

/-- `TIRE_PERFORMANCE.get(compound, 0)` — dictionary lookup with default `0`
(source line 91 uses default `0`). -/
def tirePerfGetD (compound : String) : ℚ :=
  (((TIRE_PERFORMANCE.find? (fun p => p.1 == compound)).map Prod.snd).getD 0)

/-- Degradation in seconds per lap of tire age (source line 35). -/
def DEGRADATION_RATE : ℚ := 1/10

/-- Minimum qualifying laps for a (segment, driver) record (source line 36). -/
def MIN_LAPS_FOR_ANALYSIS : Nat := 3

/-- Minimum plausible lap time in seconds (source line 37). -/
def OUTLIER_THRESHOLD_MIN : ℚ := 80

/-- Maximum plausible lap time in seconds (source line 38). -/
def OUTLIER_THRESHOLD_MAX : ℚ := 200

/-! ## Data model -/

/-- One row of the session lap table.  `none` models a pandas `NaN` in the
corresponding column.  `lapTime` is the lap duration in seconds (the source's
`LapTime` column after `.dt.total_seconds()`). -/
structure Lap where
  driver : String
  lapNumber : Nat
  lapTime : Option ℚ
  compound : Option String
  tyreLife : Option ℚ
deriving Repr, DecidableEq

/-- One row of the adjusted-lap table built by the Adjustment Engine
(source lines 98–106). -/
structure AdjustedLap where
  driver : String
  lapNumber : Nat
  rawTime : ℚ
  adjustedTime : ℚ
  compound : String
  tyreAge : ℚ
  totalAdjustment : ℚ
deriving Repr, DecidableEq

/-- A race segment: a named contiguous lap-number range.  The source stores a
Python `range(lapsStart, lapsStop)`, so a lap number `n` belongs to the segment
iff `lapsStart ≤ n < lapsStop`. -/
structure Segment where
  name : String
  lapsStart : Nat
  lapsStop : Nat
  description : String
deriving Repr, DecidableEq

/-- `n in segment['laps']` — membership of a lap number in the segment's
Python range. -/
def Segment.containsLap (s : Segment) (n : Nat) : Bool :=
  decide (s.lapsStart ≤ n) && decide (n < s.lapsStop)

/-- The per-(segment, driver) aggregate record (source lines 146–152).
`consistency` holds the sample variance (`none` for the pandas-`NaN` case of
fewer than two samples); the source stores its square root, see the header. -/
structure PerformanceMetrics where
  driver : String
  avg_adjusted_time : ℚ
  lap_count : Nat
  consistency : Option ℚ
  best_lap : ℚ
deriving Repr, DecidableEq

/-- One element of a driver's evolution sequence (source lines 173–177). -/
structure EvolutionEntry where
  segment : String
  position : Nat
  gap_to_leader : ℚ
deriving Repr, DecidableEq

/-! ## Numeric helpers (pandas aggregates) -/

/-- `Series.mean()` of a list of rationals. -/
def ratMean (xs : List ℚ) : ℚ := xs.sum / xs.length

/-- `Series.min()` of a list of rationals (the default value for the empty
list is never reached: the source only evaluates it on lists of length ≥ 3). -/
def ratMin : List ℚ → ℚ
  | [] => 0
  | x :: xs => xs.foldl min x

/-- `Series.std()` with `ddof = 1`, modelled as the sample variance;
`none` models the pandas `NaN` result on fewer than two samples. -/
def sampleVar (xs : List ℚ) : Option ℚ :=
  if 2 ≤ xs.length then
    some (((xs.map (fun x => (x - ratMean xs) ^ 2)).sum) / (xs.length - 1 : ℕ))
  else none

/-! ## Adjustment Engine (source lines 76–108) -/

/-- The per-lap body of the Adjustment Engine loop: `none` when the lap is
dropped (missing `LapTime`/`Compound`/`TyreLife`, source line 78, or raw time
outside the plausible window, source lines 87–88), otherwise the adjusted
record appended at source lines 98–106. -/
def adjustLap (lap : Lap) : Option AdjustedLap :=
  match lap.lapTime, lap.compound, lap.tyreLife with
  | some lap_time, some compound, some tyre_life =>
    if lap_time < OUTLIER_THRESHOLD_MIN ∨ lap_time > OUTLIER_THRESHOLD_MAX then
      none
    else
      let compound_adjustment := tirePerfGetD compound
      let age_penalty := tyre_life * DEGRADATION_RATE
      let total_adjustment := compound_adjustment + age_penalty
      some { driver := lap.driver
             lapNumber := lap.lapNumber
             rawTime := lap_time
             adjustedTime := lap_time + total_adjustment
             compound := compound
             tyreAge := tyre_life
             totalAdjustment := total_adjustment }
  | _, _, _ => none

/-- The Adjustment Engine: row-by-row filtering and normalization of the lap
table (source lines 76–108). -/
def calculate_tire_adjusted_times (laps : List Lap) : List AdjustedLap :=
  laps.filterMap adjustLap

/-! ## Race segments (source lines 110–128) -/

/-- The three fixed race segments (source lines 110–128). -/
def define_race_segments : List Segment :=
  [{ name := "Early Wet Chaos", lapsStart := 1, lapsStop := 16,
     description := "Formation lap tire decisions, standing water" },
   { name := "Heavy Rain Period", lapsStart := 16, lapsStop := 35,
     description := "Safety car periods, maximum spray conditions" },
   { name := "Drying Phase", lapsStart := 35, lapsStop := 50,
     description := "Track evolution, strategic tire transitions" }]

/-! ## Segment Aggregator (source lines 130–159) -/

/-- `segment_data` (source lines 135–138): the adjusted rows whose lap number
lies in the segment's range and whose driver is tracked. -/
def segmentData (adjusted_df : List AdjustedLap) (segment : Segment)
    (target_drivers : List String) : List AdjustedLap :=
  adjusted_df.filter
    (fun r => segment.containsLap r.lapNumber && target_drivers.contains r.driver)

/-- `driver_laps` (source line 143): the rows of `segment_data` for one
driver. -/
def driverLaps (segment_data : List AdjustedLap) (driver : String) :
    List AdjustedLap :=
  segment_data.filter (fun r => r.driver == driver)

/-- `performance_metrics` (source lines 146–152). -/
def perfMetrics (driver : String) (driver_laps : List AdjustedLap) :
    PerformanceMetrics :=
  { driver := driver
    avg_adjusted_time := ratMean (driver_laps.map AdjustedLap.adjustedTime)
    lap_count := driver_laps.length
    consistency := sampleVar (driver_laps.map AdjustedLap.adjustedTime)
    best_lap := ratMin (driver_laps.map AdjustedLap.adjustedTime) }

/-- The `driver_performance` list for one segment before sorting (source
lines 140–153): one record per tracked driver with at least
`MIN_LAPS_FOR_ANALYSIS` qualifying laps, in tracked-driver order. -/
def driver_performance (adjusted_df : List AdjustedLap)
    (target_drivers : List String) (segment : Segment) :
    List PerformanceMetrics :=
  target_drivers.filterMap (fun driver =>
    let dl := driverLaps (segmentData adjusted_df segment target_drivers) driver
    if MIN_LAPS_FOR_ANALYSIS ≤ dl.length then some (perfMetrics driver dl)
    else none)

/-- The sort key comparison of `driver_performance.sort(key=lambda x:
x['avg_adjusted_time'])` (source line 156). -/
def perfLE (a b : PerformanceMetrics) : Bool :=
  decide (a.avg_adjusted_time ≤ b.avg_adjusted_time)

/-- One iteration of the Segment Aggregator loop: the segment's name together
with its ranked list (source lines 134–157). -/
def analyze_one_segment (adjusted_df : List AdjustedLap)
    (target_drivers : List String) (segment : Segment) :
    String × List PerformanceMetrics :=
  (segment.name,
   (driver_performance adjusted_df target_drivers segment).mergeSort perfLE)

/-- Insertion into a Python dict modelled as an association list: an existing
key is overwritten in place, a new key is appended at the end. -/
def dictInsert {β : Type} :
    List (String × β) → String → β → List (String × β)
  | [], k, v => [(k, v)]
  | (k0, v0) :: rest, k, v =>
    if k0 = k then (k0, v) :: rest else (k0, v0) :: dictInsert rest k v

/-- The Segment Aggregator (source lines 130–159): the `results` dict mapping
each segment's name to its ranked list of performance records. -/
def analyze_segment_performance (adjusted_df : List AdjustedLap)
    (segments : List Segment) (target_drivers : List String) :
    List (String × List PerformanceMetrics) :=
  segments.foldl
    (fun results segment =>
      dictInsert results segment.name
        (analyze_one_segment adjusted_df target_drivers segment).2)
    []

/-! ## Trend Summarizer (source lines 161–179) -/

/-- `driver_evolution[driver].append(entry)`, creating the key at the end of
the dict when absent (source lines 170–177). -/
def addEntry :
    List (String × List EvolutionEntry) → String → EvolutionEntry →
      List (String × List EvolutionEntry)
  | [], d, e => [(d, [e])]
  | (d0, es) :: rest, d, e =>
    if d0 = d then (d0, es ++ [e]) :: rest else (d0, es) :: addEntry rest d e

/-- The (driver, entry) pairs generated by one segment of the Trend Summarizer
loop (source lines 166–177): `enumerate(results)` with 1-based position and
gap to `results[0]`.  When `results` is empty the loop body never runs (and
`results[0]` is never read). -/
def segmentEntryPairs (segment_name : String)
    (results : List PerformanceMetrics) : List (String × EvolutionEntry) :=
  match results with
  | [] => []
  | r0 :: _ =>
    results.enum.map (fun p =>
      (p.2.driver,
       { segment := segment_name
         position := p.1 + 1
         gap_to_leader := p.2.avg_adjusted_time - r0.avg_adjusted_time }))

/-- The Trend Summarizer (source lines 161–179): the `driver_evolution` dict
mapping each driver to its ordered evolution entries. -/
def generate_performance_summary
    (segment_results : List (String × List PerformanceMetrics)) :
    List (String × List EvolutionEntry) :=
  segment_results.foldl
    (fun acc p =>
      (segmentEntryPairs p.1 p.2).foldl (fun a q => addEntry a q.1 q.2) acc)
    []

/-- `dict` lookup returning `[]` for an absent driver, used to state
properties of the Trend Summarizer's output. -/
def lookupD (acc : List (String × List EvolutionEntry)) (d : String) :
    List EvolutionEntry :=
  ((acc.find? (fun p => p.1 == d)).map Prod.snd).getD []

/-! ## Race overview (source lines 52–74) -/

/-- The session data consumed by `analyze_race_overview`: event metadata and
the lap table. -/
structure Session where
  eventName : String
  location : String
  eventDate : String
  laps : List Lap
deriving Repr, DecidableEq

/-- One entry of the compound-usage histogram (source lines 65–72). -/
structure CompoundStat where
  compound : String
  lapsCount : Nat
  percentage : ℚ
deriving Repr, DecidableEq

/-- The `race_info` record (source lines 56–72). -/
structure RaceInfo where
  total_laps : Nat
  event_name : String
  location : String
  date : String
  compound_distribution : List CompoundStat
deriving Repr, DecidableEq

/-- Python `round(x, 1)` on exact rationals: round to the nearest multiple of
`1/10`, ties to even (CPython rounds the shortest decimal representation of
the double; on the inputs appearing below the rational and float semantics
agree). -/
def pyRound1 (q : ℚ) : ℚ :=
  let x : ℚ := 10 * q
  let f : ℤ := Int.floor x
  let n : ℤ :=
    if x - f < 1/2 then f
    else if 1/2 < x - f then f + 1
    else if f % 2 = 0 then f else f + 1
  (n : ℚ) / 10

/-- Descending-count comparison of `Series.value_counts()`. -/
def countDescLE (a b : String × Nat) : Bool := decide (b.2 ≤ a.2)

/-- `laps['Compound'].value_counts()`: occurrence counts of the non-missing
compounds, sorted by descending count (`value_counts` drops `NaN`). -/
def value_counts (cs : List String) : List (String × Nat) :=
  ((cs.dedup).map (fun c => (c, cs.count c))).mergeSort countDescLE

/-- `analyze_race_overview` (source lines 52–74).  The comprehension's
`if pd.notna(compound)` guard (source line 71) is vacuous because
`value_counts` has already dropped missing compounds, so it does not appear
here.  Percentages divide by `len(laps)` — the total number of rows of the
lap table, rows with missing compound included (source line 68). -/
def analyze_race_overview (session : Session) : RaceInfo × List Lap :=
  let laps := session.laps
  let compound_usage := value_counts (laps.filterMap Lap.compound)
  ({ total_laps := laps.length
     event_name := session.eventName
     location := session.location
     date := session.eventDate
     compound_distribution := compound_usage.map (fun p =>
       { compound := p.1
         lapsCount := p.2
         percentage := pyRound1 (((p.2 : ℚ) / (laps.length : ℚ)) * 100) }) },
   laps)

/-- `qualifyingLaps adjusted_df segment d`: the adjusted laps of driver `d`
whose lap number lies in the segment's range — the quantity the minimum-sample
rule is about. -/
def qualifyingLaps (adjusted_df : List AdjustedLap) (segment : Segment)
    (d : String) : List AdjustedLap :=
  adjusted_df.filter (fun r => segment.containsLap r.lapNumber && r.driver == d)

/-- The evolution entries that a list of (driver, entry) pairs contributes to
one driver, in order: used to state properties of the Trend Summarizer. -/
def entriesFor (d : String) (pairs : List (String × EvolutionEntry)) :
    List EvolutionEntry :=
  pairs.filterMap (fun q => if q.1 = d then some q.2 else none)

/-! ## Concrete data used by the witnesses -/

/-- Concrete lap used to instantiate C1. -/
def c1Lap : Lap := ⟨"VER", 1, some 95, some "SOFT", some 5⟩

/-- The record the Adjustment Engine produces for `c1Lap`. -/
def c1Rec : AdjustedLap :=
  { driver := "VER", lapNumber := 1, rawTime := 95, adjustedTime := 87.5,
    compound := "SOFT", tyreAge := 5, totalAdjustment := -7.5 }

/-- A pit-stop-length lap (300 s) used to instantiate C7. -/
def c7Bad : Lap := ⟨"HUL", 20, some 300, some "WET", some 2⟩

/-- A valid lap before the bad one. -/
def c7Good1 : Lap := ⟨"HUL", 19, some 100, some "WET", some 1⟩

/-- A valid lap after the bad one. -/
def c7Good2 : Lap := ⟨"HUL", 21, some 101, some "WET", some 3⟩

/-- Lap table for the C10 counterexample: 53 laps with 53 pairwise distinct
compounds plus one lap whose compound is missing.  Each compound's percentage
is `round(100/54, 1) = 1.9`, so the 53 listed percentages sum to `100.7`. -/
def c10Laps : List Lap :=
  ((List.range 53).map (fun i => ⟨"DRV", i + 1, some 90, some (toString i), some 0⟩)) ++
  [⟨"DRV", 54, some 90, none, some 0⟩]

/-- The session wrapping `c10Laps`. -/
def c10Session : Session := ⟨"British Grand Prix", "Silverstone", "2025-07-06", c10Laps⟩

/-- Session used to instantiate the amended C10: one SOFT lap and one lap with
the compound missing. -/
def c10wSession : Session :=
  ⟨"E", "L", "D", [⟨"NOR", 1, some 90, some "SOFT", some 1⟩,
                   ⟨"NOR", 2, some 91, none, some 2⟩]⟩

/-- The SOFT histogram entry of `c10wSession`: 1 of 2 rows, listed as 50%. -/
def c10wStat : CompoundStat := ⟨"SOFT", 1, 50⟩

/-- Example lap table for the Segment Aggregator witnesses: NOR and PIA each
have three valid laps in the first segment, PIA also three in the third
segment, VER has only two laps (below the minimum threshold). -/
def exLaps : List Lap :=
  [⟨"NOR", 2, some 100, some "INTERMEDIATE", some 0⟩,
   ⟨"NOR", 3, some 101, some "INTERMEDIATE", some 0⟩,
   ⟨"NOR", 4, some 102, some "INTERMEDIATE", some 0⟩,
   ⟨"PIA", 2, some 103, some "INTERMEDIATE", some 0⟩,
   ⟨"PIA", 3, some 104, some "INTERMEDIATE", some 0⟩,
   ⟨"PIA", 4, some 105, some "INTERMEDIATE", some 0⟩,
   ⟨"PIA", 36, some 110, some "INTERMEDIATE", some 0⟩,
   ⟨"PIA", 37, some 111, some "INTERMEDIATE", some 0⟩,
   ⟨"PIA", 38, some 112, some "INTERMEDIATE", some 0⟩,
   ⟨"VER", 2, some 99, some "INTERMEDIATE", some 0⟩,
   ⟨"VER", 3, some 99, some "INTERMEDIATE", some 0⟩]

/-- The adjusted table of `exLaps`. -/
def exADF : List AdjustedLap := calculate_tire_adjusted_times exLaps

/-- The tracked drivers of the witness scenario. -/
def exTDS : List String := ["NOR", "PIA", "VER"]

/-- The first race segment (laps 1–15). -/
def exSeg1 : Segment :=
  ⟨"Early Wet Chaos", 1, 16, "Formation lap tire decisions, standing water"⟩

/-- The second race segment (laps 16–34), where nobody in `exLaps` drives. -/
def exSeg2 : Segment :=
  ⟨"Heavy Rain Period", 16, 35, "Safety car periods, maximum spray conditions"⟩

/-- The ranked list the aggregator produces for `exSeg1` on `exADF`. -/
def exResults : List PerformanceMetrics :=
  [⟨"NOR", 101, 3, some 1, 100⟩, ⟨"PIA", 104, 3, some 1, 103⟩]

/-- The lap table of one driver in the constant-offset scenario of the
end-to-end property: one lap per `base` entry, with the driver's constant
offset `o` added to each raw time, all on the same compound and tire age. -/
def offsetLaps (d : String) (o : ℚ) (c : String) (a : ℚ)
    (base : List (Nat × ℚ)) : List Lap :=
  base.map (fun p => ⟨d, p.1, some (p.2 + o), some c, some a⟩)

/-- The adjusted rows the Adjustment Engine produces for `offsetLaps` when all
raw times pass the plausibility window. -/
def offsetAdj (d : String) (o : ℚ) (c : String) (a : ℚ)
    (base : List (Nat × ℚ)) : List AdjustedLap :=
  base.map (fun p =>
    ⟨d, p.1, p.2 + o, p.2 + o + (tirePerfGetD c + a * DEGRADATION_RATE), c, a,
      tirePerfGetD c + a * DEGRADATION_RATE⟩)

/-- Base lap numbers and raw times of the constant-offset witness. -/
def c9Base : List (Nat × ℚ) := [(2, 90), (3, 91), (4, 92)]

/-! ## General lemmas about the Adjustment Engine -/

/-- The Adjustment Engine on a one-lap table is the per-lap body. -/
theorem calculate_singleton (lap : Lap) :
    calculate_tire_adjusted_times [lap] = (adjustLap lap).toList := by
  rcases h : adjustLap lap with _ | r <;>
    simp [calculate_tire_adjusted_times, h]

/-- A lap with all three required fields present yields a record exactly when
its raw time lies in the closed plausible window. -/
theorem adjustLap_isSome (d : String) (n : Nat) (t : ℚ) (c : String) (a : ℚ) :
    (adjustLap ⟨d, n, some t, some c, some a⟩).isSome = true ↔
      80 ≤ t ∧ t ≤ 200 := by
  simp only [adjustLap, OUTLIER_THRESHOLD_MIN, OUTLIER_THRESHOLD_MAX]
  split
  · rename_i h
    exact iff_of_false (by simp) (by rintro ⟨h1, h2⟩; rcases h with h | h <;> linarith)
  · rename_i h
    push_neg at h
    exact iff_of_true (by simp) ⟨h.1, h.2⟩

/-- A lap missing a required field, or with an out-of-window raw time, is
mapped to `none` by the per-lap engine body. -/
theorem adjustLap_eq_none (lap : Lap)
    (hbad : lap.lapTime = none ∨ lap.compound = none ∨ lap.tyreLife = none ∨
      ∃ t, lap.lapTime = some t ∧ (t < 80 ∨ 200 < t)) :
    adjustLap lap = none := by
  rcases lap with ⟨d, n, tl, cp, life⟩
  rcases tl with _ | t <;> rcases cp with _ | c <;> rcases life with _ | a <;>
    simp only [adjustLap]
  simp only [Option.some_ne_none, false_or, Option.some.injEq] at hbad
  obtain ⟨t0, ht0, hw⟩ := hbad
  subst ht0
  rw [if_pos]
  simpa [OUTLIER_THRESHOLD_MIN, OUTLIER_THRESHOLD_MAX] using hw

/-- Inversion of the per-lap body: every produced record satisfies the
normalization formula. -/
theorem adjustLap_formula (lap : Lap) (r : AdjustedLap)
    (h : adjustLap lap = some r) :
    r.adjustedTime = r.rawTime + tirePerfGetD r.compound + r.tyreAge * DEGRADATION_RATE := by
  rcases lap with ⟨d, n, tl, cp, life⟩
  rcases tl with _ | t <;> rcases cp with _ | c <;> rcases life with _ | a <;>
    simp only [adjustLap] at h <;> try exact (Option.noConfusion h)
  split at h
  · exact (Option.noConfusion h)
  · cases Option.some.inj h
    show t + (tirePerfGetD c + a * DEGRADATION_RATE) = t + tirePerfGetD c + a * DEGRADATION_RATE
    ring

/-! ## C1: adjusted-time formula -/

/-- C1. Every record produced by the Adjustment Engine has
`adjustedTime = rawTime + compound adjustment + tyreAge * DEGRADATION_RATE`,
where the compound adjustment is the table value (INTERMEDIATE 0, SOFT −8,
MEDIUM −6, HARD −4, WET 3) and defaults to 0 for any other compound; in
particular a SOFT lap with tire age 5 and raw time 95 s is adjusted to
exactly 87.5 s. -/
theorem adjusted_time_formula (laps : List Lap) (r : AdjustedLap)
    (hr : r ∈ calculate_tire_adjusted_times laps) :
    r.adjustedTime = r.rawTime + tirePerfGetD r.compound + r.tyreAge * DEGRADATION_RATE ∧
    (tirePerfGetD "INTERMEDIATE" = 0 ∧ tirePerfGetD "SOFT" = -8 ∧
      tirePerfGetD "MEDIUM" = -6 ∧ tirePerfGetD "HARD" = -4 ∧ tirePerfGetD "WET" = 3) ∧
    (∀ c : String, c ≠ "INTERMEDIATE" → c ≠ "SOFT" → c ≠ "MEDIUM" → c ≠ "HARD" →
      c ≠ "WET" → tirePerfGetD c = 0) ∧
    (calculate_tire_adjusted_times
        [⟨"VER", 1, some 95, some "SOFT", some 5⟩]).map AdjustedLap.adjustedTime
      = [(87.5 : ℚ)] := by
  refine ⟨?_, by with_unfolding_all decide, ?_, by with_unfolding_all decide⟩
  · obtain ⟨lap, -, h⟩ := List.mem_filterMap.mp hr
    exact adjustLap_formula lap r h
  · intro c h1 h2 h3 h4 h5
    have e1 : ("INTERMEDIATE" == c) = false := beq_eq_false_iff_ne.mpr (Ne.symm h1)
    have e2 : ("SOFT" == c) = false := beq_eq_false_iff_ne.mpr (Ne.symm h2)
    have e3 : ("MEDIUM" == c) = false := beq_eq_false_iff_ne.mpr (Ne.symm h3)
    have e4 : ("HARD" == c) = false := beq_eq_false_iff_ne.mpr (Ne.symm h4)
    have e5 : ("WET" == c) = false := beq_eq_false_iff_ne.mpr (Ne.symm h5)
    simp [tirePerfGetD, TIRE_PERFORMANCE, List.find?, e1, e2, e3, e4, e5]

/-- Witness for C1 at the concrete SOFT/age-5/95 s lap. -/
theorem adjusted_time_formula_witness :
    c1Rec ∈ calculate_tire_adjusted_times [c1Lap] ∧
    c1Rec.adjustedTime =
      c1Rec.rawTime + tirePerfGetD c1Rec.compound + c1Rec.tyreAge * DEGRADATION_RATE :=
  ⟨by with_unfolding_all decide,
   (adjusted_time_formula [c1Lap] c1Rec (by with_unfolding_all decide)).1⟩

/-! ## C2: boundary-inclusive plausible window -/

/-- C2. For a lap with all required fields present, the Adjustment Engine
produces a record exactly when the raw time lies in the closed window
`[80, 200]` (so raw times of exactly `80.0` and `200.0` are kept), and drops
the lap exactly when the raw time is strictly below 80 or strictly above 200
(so `79.99` and `200.01` are dropped). -/
theorem plausible_window_boundary (d : String) (n : Nat) (c : String) (t a : ℚ) :
    ((calculate_tire_adjusted_times [⟨d, n, some t, some c, some a⟩]).length = 1 ↔
      80 ≤ t ∧ t ≤ 200) ∧
    (calculate_tire_adjusted_times [⟨d, n, some t, some c, some a⟩] = [] ↔
      t < 80 ∨ 200 < t) ∧
    (calculate_tire_adjusted_times
        [⟨"HAM", 1, some 80, some "WET", some 0⟩]).length = 1 ∧
    (calculate_tire_adjusted_times
        [⟨"HAM", 1, some 200, some "WET", some 0⟩]).length = 1 ∧
    calculate_tire_adjusted_times
        [⟨"HAM", 1, some (79.99 : ℚ), some "WET", some 0⟩] = [] ∧
    calculate_tire_adjusted_times
        [⟨"HAM", 1, some (200.01 : ℚ), some "WET", some 0⟩] = [] := by
  have key := adjustLap_isSome d n t c a
  rw [calculate_singleton, calculate_singleton]
  refine ⟨?_, ?_, by with_unfolding_all decide, by with_unfolding_all decide,
    by with_unfolding_all decide, by with_unfolding_all decide⟩ <;>
    rcases h : adjustLap ⟨d, n, some t, some c, some a⟩ with _ | r <;> rw [h] at key <;>
      simp only [Option.isSome_none, Option.isSome_some, Bool.false_eq_true,
        false_iff, true_iff] at key
  · refine iff_of_false (by simp) (fun hp => key hp)
  · exact iff_of_true (by simp) key
  · refine iff_of_true (by simp) ?_
    rcases le_or_lt 80 t with h80 | h80
    · right
      by_contra hgt
      push_neg at hgt
      exact key ⟨h80, hgt⟩
    · exact Or.inl h80
  · refine iff_of_false (by simp) ?_
    rintro (hlt | hgt)
    · linarith [key.1]
    · linarith [key.2]

/-! ## C7: per-lap failure semantics of the Adjustment Engine -/

/-- C7. The Adjustment Engine is total: a lap missing raw time, compound,
or tire age, or with an out-of-window raw time, is omitted while all other
laps are still processed (the output is the concatenation of the outputs on
the rows before and after it), and the empty table yields the empty output. -/
theorem engine_skips_bad_laps (pre post : List Lap) (lap : Lap)
    (hbad : lap.lapTime = none ∨ lap.compound = none ∨ lap.tyreLife = none ∨
      ∃ t, lap.lapTime = some t ∧ (t < 80 ∨ 200 < t)) :
    calculate_tire_adjusted_times (pre ++ lap :: post) =
      calculate_tire_adjusted_times pre ++ calculate_tire_adjusted_times post ∧
    calculate_tire_adjusted_times (pre ++ post) =
      calculate_tire_adjusted_times pre ++ calculate_tire_adjusted_times post ∧
    calculate_tire_adjusted_times ([] : List Lap) = [] := by
  have h := adjustLap_eq_none lap hbad
  refine ⟨?_, ?_, rfl⟩ <;>
    simp [calculate_tire_adjusted_times, List.filterMap_append, List.filterMap_cons, h]

/-- Witness for C7: a 300 s lap in the middle of a table is dropped and both
neighbours are still processed. -/
theorem engine_skips_bad_laps_witness :
    calculate_tire_adjusted_times ([c7Good1] ++ c7Bad :: [c7Good2]) =
      calculate_tire_adjusted_times [c7Good1] ++ calculate_tire_adjusted_times [c7Good2] ∧
    calculate_tire_adjusted_times ([] : List Lap) = [] :=
  ⟨(engine_skips_bad_laps [c7Good1] [c7Good2] c7Bad
      (Or.inr (Or.inr (Or.inr ⟨300, rfl, Or.inr (by norm_num)⟩)))).1,
   (engine_skips_bad_laps [c7Good1] [c7Good2] c7Bad
      (Or.inr (Or.inr (Or.inr ⟨300, rfl, Or.inr (by norm_num)⟩)))).2.2⟩

/-! ## Histogram lemmas for C10 -/

/-- Occurrence counts in the non-missing-compound column, as a count over the
full lap table. -/
theorem count_filterMap_compound (laps : List Lap) (c : String) :
    (laps.filterMap Lap.compound).count c
      = laps.countP (fun lap => lap.compound == some c) := by
  induction laps with
  | nil => rfl
  | cons lap rest ih =>
    rcases h : lap.compound with _ | v
    · simp [List.filterMap_cons, h, List.countP_cons, ih]
    · by_cases hv : v = c <;>
        simp [List.filterMap_cons, h, List.count_cons, List.countP_cons, ih, beq_iff_eq, hv]

/-- If some row of `l` is sent to `none`, then `filterMap` strictly shrinks. -/
theorem length_filterMap_lt {α β : Type} (f : α → Option β) (l : List α)
    (h : ∃ x ∈ l, f x = none) : (l.filterMap f).length < l.length := by
  induction l with
  | nil => simp at h
  | cons a rest ih =>
    rcases h with ⟨x, hx, hfx⟩
    rcases List.mem_cons.mp hx with rfl | hx'
    · have := List.length_filterMap_le f rest
      simp [List.filterMap_cons, hfx]
      omega
    · rcases hf : f a with _ | b <;> simp [List.filterMap_cons, hf] <;>
        [exact Nat.lt_succ_of_lt (ih ⟨x, hx', hfx⟩); exact ih ⟨x, hx', hfx⟩]

/-- Casting a sum of naturals into `ℚ` termwise. -/
theorem listSumNatCast (l : List ℕ) :
    ((l.sum : ℕ) : ℚ) = (l.map (fun n : ℕ => (n : ℚ))).sum := by
  induction l with
  | nil => simp
  | cons a rest ih => simp [ih]

/-! ## C10: compound-usage percentages -/

set_option maxRecDepth 100000 in
/-- C10 counterexample.  On `c10Session` one lap row lacks a compound, yet
the listed (rounded) percentages sum to `100.7`, not strictly less than 100:
the claim is false as stated. -/
theorem compound_percentages_counterexample :
    c10Session.laps.countP (fun lap => lap.compound == none) = 1 ∧
    (((analyze_race_overview c10Session).1.compound_distribution).map
        CompoundStat.percentage).sum = 1007/10 ∧
    ¬ (((analyze_race_overview c10Session).1.compound_distribution).map
        CompoundStat.percentage).sum < 100 := by
  have h : (((analyze_race_overview c10Session).1.compound_distribution).map
      CompoundStat.percentage).sum = 1007/10 := by with_unfolding_all decide
  refine ⟨by with_unfolding_all decide, h, ?_⟩
  rw [h]
  norm_num

/-- C10 amended.  Missing-compound rows are excluded from the histogram's
keys, and every compound's percentage is its row count divided by the total
number of lap rows (missing-compound rows included), times 100, rounded to one
decimal.  When a lap row lacks a compound the *exact* (pre-rounding)
percentages sum to strictly less than 100; the rounded listed values can
nevertheless total 100 or more (see the counterexample). -/
theorem compound_percentages_amended (s : Session) :
    (∀ st ∈ (analyze_race_overview s).1.compound_distribution,
      (∃ lap ∈ s.laps, lap.compound = some st.compound) ∧
      st.lapsCount = s.laps.countP (fun lap => lap.compound == some st.compound) ∧
      st.percentage = pyRound1 ((st.lapsCount : ℚ) / (s.laps.length : ℚ) * 100)) ∧
    ((∃ lap ∈ s.laps, lap.compound = none) →
      (((analyze_race_overview s).1.compound_distribution).map
          (fun st => (st.lapsCount : ℚ) / (s.laps.length : ℚ) * 100)).sum < 100) := by
  constructor
  · intro st hst
    simp only [analyze_race_overview, List.mem_map] at hst
    obtain ⟨p, hp, rfl⟩ := hst
    have hp' : p ∈ (s.laps.filterMap Lap.compound).dedup.map
        (fun c => (c, (s.laps.filterMap Lap.compound).count c)) := by
      simpa [value_counts] using (List.mem_mergeSort).mp hp
    obtain ⟨c, hc, rfl⟩ := List.mem_map.mp hp'
    have hcm : c ∈ s.laps.filterMap Lap.compound := List.mem_dedup.mp hc
    obtain ⟨lap, hlap, hlc⟩ := List.mem_filterMap.mp hcm
    exact ⟨⟨lap, hlap, hlc⟩, count_filterMap_compound s.laps c, rfl⟩
  · rintro ⟨lap, hlap, hnone⟩
    have hN : 0 < s.laps.length :=
      List.length_pos.mpr (fun he => by rw [he] at hlap; simp at hlap)
    have hlt : (s.laps.filterMap Lap.compound).length < s.laps.length :=
      length_filterMap_lt _ _ ⟨lap, hlap, hnone⟩
    set cs := s.laps.filterMap Lap.compound with hcs
    set N := s.laps.length with hNdef
    have hmaps : (((analyze_race_overview s).1.compound_distribution).map
        (fun st => (st.lapsCount : ℚ) / (N : ℚ) * 100))
        = (value_counts cs).map (fun p => ((p.2 : ℚ) / (N : ℚ) * 100)) := by
      simp only [analyze_race_overview, List.map_map]
      rfl
    rw [hmaps]
    have hperm : ((value_counts cs).map (fun p => ((p.2 : ℚ) / (N : ℚ) * 100))).sum
        = ((cs.dedup.map (fun c => (c, cs.count c))).map
            (fun p => ((p.2 : ℚ) / (N : ℚ) * 100))).sum :=
      List.Perm.sum_eq ((List.mergeSort_perm _ _).map _)
    rw [hperm, List.map_map]
    have hterm : ((fun p : String × Nat => ((p.2 : ℚ) / (N : ℚ) * 100)) ∘
        (fun c => (c, cs.count c))) = fun c => (cs.count c : ℚ) * (100 / (N : ℚ)) := by
      funext c
      simp [Function.comp]
      ring
    rw [hterm]
    have hsum : (cs.dedup.map (fun c => (cs.count c : ℚ) * (100 / (N : ℚ)))).sum
        = ((cs.length : ℚ)) * (100 / (N : ℚ)) := by
      rw [show (fun c => (cs.count c : ℚ) * (100 / (N : ℚ)))
            = (fun c => ((fun x => (cs.count x : ℚ)) c) * (100 / (N : ℚ))) from rfl,
        List.sum_map_mul_right]
      congr 1
      calc (cs.dedup.map (fun x => (cs.count x : ℚ))).sum
          = ((cs.dedup.map (fun x => List.count x cs)).map (fun n : ℕ => (n : ℚ))).sum := by
            rw [List.map_map]
            rfl
        _ = (((cs.dedup.map (fun x => List.count x cs)).sum : ℕ) : ℚ) :=
            (listSumNatCast _).symm
        _ = (cs.length : ℚ) := by rw [List.sum_map_count_dedup_eq_length]
    rw [hsum]
    have h100 : (0 : ℚ) < 100 / (N : ℚ) := by positivity
    calc (cs.length : ℚ) * (100 / (N : ℚ))
        < (N : ℚ) * (100 / (N : ℚ)) := by
          exact mul_lt_mul_of_pos_right (by exact_mod_cast hlt) h100
      _ = 100 := by field_simp

/-- Witness for the amended C10 on `c10wSession`. -/
theorem compound_percentages_amended_witness :
    c10wStat ∈ (analyze_race_overview c10wSession).1.compound_distribution ∧
    c10wStat.lapsCount =
      c10wSession.laps.countP (fun lap => lap.compound == some c10wStat.compound) ∧
    (((analyze_race_overview c10wSession).1.compound_distribution).map
        (fun st => (st.lapsCount : ℚ) / (c10wSession.laps.length : ℚ) * 100)).sum < 100 :=
  ⟨by with_unfolding_all decide,
   ((compound_percentages_amended c10wSession).1 c10wStat (by with_unfolding_all decide)).2.1,
   (compound_percentages_amended c10wSession).2
     ⟨⟨"NOR", 2, some 91, none, some 2⟩, by with_unfolding_all decide, rfl⟩⟩

/-! ## General lemmas about the Segment Aggregator -/

/-- The sort comparison is transitive. -/
theorem perfLE_trans (a b c : PerformanceMetrics) :
    perfLE a b = true → perfLE b c = true → perfLE a c = true := by
  simp only [perfLE, decide_eq_true_eq]
  exact le_trans

/-- The sort comparison is total. -/
theorem perfLE_total (a b : PerformanceMetrics) :
    (perfLE a b || perfLE b a) = true := by
  simp only [perfLE, Bool.or_eq_true, decide_eq_true_eq]
  exact le_total _ _

/-- Stability of the ranking sort: the records having any fixed mean adjusted
time appear in the sorted list exactly as they appear in the unsorted one. -/
theorem filter_mergeSort_avg (q : ℚ) (l : List PerformanceMetrics) :
    ((l.mergeSort perfLE).filter (fun r => r.avg_adjusted_time == q))
      = l.filter (fun r => r.avg_adjusted_time == q) := by
  set p : PerformanceMetrics → Bool := fun r => r.avg_adjusted_time == q with hp
  have hpw : (l.filter p).Pairwise (fun a b => perfLE a b = true) := by
    apply List.pairwise_of_forall_mem_list
    intro a ha b hb
    have ha' : a.avg_adjusted_time = q := by
      simpa [hp] using (List.mem_filter.mp ha).2
    have hb' : b.avg_adjusted_time = q := by
      simpa [hp] using (List.mem_filter.mp hb).2
    simp [perfLE, ha', hb']
  have h1 : (l.filter p).Sublist (l.mergeSort perfLE) :=
    List.sublist_mergeSort perfLE_trans perfLE_total hpw (List.filter_sublist l)
  have h2 : ((l.filter p).filter p).Sublist ((l.mergeSort perfLE).filter p) :=
    h1.filter p
  rw [List.filter_eq_self.mpr (fun a ha => (List.mem_filter.mp ha).2)] at h2
  have hlen : ((l.mergeSort perfLE).filter p).length = (l.filter p).length :=
    (List.Perm.filter p (List.mergeSort_perm l perfLE)).length_eq
  exact (h2.eq_of_length hlen.symm).symm

/-- Every element of the dict after an insertion is the inserted pair or an
element of the original dict. -/
theorem mem_dictInsert {β : Type} (acc : List (String × β)) (k : String) (v : β)
    (q : String × β) (h : q ∈ dictInsert acc k v) : q = (k, v) ∨ q ∈ acc := by
  induction acc with
  | nil => simpa [dictInsert] using h
  | cons a rest ih =>
    rcases a with ⟨k0, v0⟩
    by_cases hk : k0 = k
    · subst hk
      simp only [dictInsert, if_pos rfl] at h
      rcases List.mem_cons.mp h with rfl | h'
      · exact Or.inl rfl
      · exact Or.inr (List.mem_cons_of_mem _ h')
    · simp only [dictInsert, if_neg hk] at h
      rcases List.mem_cons.mp h with rfl | h'
      · exact Or.inr (List.mem_cons_self _ _)
      · rcases ih h' with h'' | h''
        · exact Or.inl h''
        · exact Or.inr (List.mem_cons_of_mem _ h'')

/-- Every entry of the Segment Aggregator's dict is the (name, ranked list)
pair of one of the segments. -/
theorem mem_analyze (adjusted_df : List AdjustedLap) (segments : List Segment)
    (target_drivers : List String) (p : String × List PerformanceMetrics)
    (h : p ∈ analyze_segment_performance adjusted_df segments target_drivers) :
    ∃ seg ∈ segments, p = analyze_one_segment adjusted_df target_drivers seg := by
  have main : ∀ (segs : List Segment) (acc : List (String × List PerformanceMetrics)),
      p ∈ segs.foldl (fun results segment =>
        dictInsert results segment.name
          (analyze_one_segment adjusted_df target_drivers segment).2) acc →
      p ∈ acc ∨ ∃ seg ∈ segs, p = analyze_one_segment adjusted_df target_drivers seg := by
    intro segs
    induction segs with
    | nil => exact fun acc h => Or.inl h
    | cons s rest ih =>
      intro acc h
      rcases ih _ h with h' | ⟨seg, hseg, rfl⟩
      · rcases mem_dictInsert _ _ _ _ h' with rfl | h''
        · exact Or.inr ⟨s, List.mem_cons_self _ _, rfl⟩
        · exact Or.inl h''
      · exact Or.inr ⟨seg, List.mem_cons_of_mem _ hseg, rfl⟩
  rcases main segments [] h with h' | h'
  · simp at h'
  · exact h'

/-- The ranked list of one segment is sorted by mean adjusted time. -/
theorem analyze_one_sorted (adjusted_df : List AdjustedLap)
    (target_drivers : List String) (segment : Segment) :
    (analyze_one_segment adjusted_df target_drivers segment).2.Pairwise
      (fun a b => a.avg_adjusted_time ≤ b.avg_adjusted_time) := by
  have h := List.sorted_mergeSort perfLE_trans perfLE_total
    (driver_performance adjusted_df target_drivers segment)
  exact h.imp (fun hab => by simpa [perfLE] using hab)

/-- A `filterMap` whose partial function tags each output with its input key
yields a key list that embeds into the inputs. -/
theorem map_filterMap_sublist (f : String → Option PerformanceMetrics)
    (hf : ∀ d r, f d = some r → r.driver = d) (l : List String) :
    ((l.filterMap f).map PerformanceMetrics.driver).Sublist l := by
  induction l with
  | nil => simp
  | cons a rest ih =>
    rcases hfa : f a with _ | r
    · rw [List.filterMap_cons, hfa]
      exact ih.cons a
    · rw [List.filterMap_cons, hfa, List.map_cons, hf a r hfa]
      exact ih.cons₂ a

/-- The drivers of the unsorted per-segment records embed into the tracked
driver list, in order. -/
theorem driver_performance_drivers (adjusted_df : List AdjustedLap)
    (target_drivers : List String) (segment : Segment) :
    ((driver_performance adjusted_df target_drivers segment).map
      PerformanceMetrics.driver).Sublist target_drivers := by
  apply map_filterMap_sublist
  intro d r h
  dsimp only at h
  rcases Option.ite_none_right_eq_some.mp h with ⟨-, h'⟩
  cases Option.some.inj h'
  rfl

/-- Membership in the unsorted per-segment record list. -/
theorem mem_driver_performance (adjusted_df : List AdjustedLap)
    (target_drivers : List String) (segment : Segment) (r : PerformanceMetrics) :
    r ∈ driver_performance adjusted_df target_drivers segment ↔
      ∃ d ∈ target_drivers,
        MIN_LAPS_FOR_ANALYSIS ≤
          (driverLaps (segmentData adjusted_df segment target_drivers) d).length ∧
        r = perfMetrics d (driverLaps (segmentData adjusted_df segment target_drivers) d) := by
  simp only [driver_performance, List.mem_filterMap, Option.ite_none_right_eq_some,
    Option.some.injEq]
  constructor
  · rintro ⟨d, hd, hlen, rfl⟩
    exact ⟨d, hd, hlen, rfl⟩
  · rintro ⟨d, hd, hlen, rfl⟩
    exact ⟨d, hd, hlen, rfl⟩

/-- For a tracked driver, the per-driver rows of `segment_data` are exactly
the driver's qualifying laps. -/
theorem driverLaps_segmentData (adjusted_df : List AdjustedLap)
    (target_drivers : List String) (segment : Segment) (d : String)
    (hd : d ∈ target_drivers) :
    driverLaps (segmentData adjusted_df segment target_drivers) d
      = qualifyingLaps adjusted_df segment d := by
  unfold driverLaps segmentData qualifyingLaps
  rw [List.filter_filter]
  apply List.filter_congr
  intro r hr
  by_cases h : r.driver = d
  · have : target_drivers.contains r.driver = true := by
      rw [h]
      exact List.elem_eq_true_of_mem hd
    simp [h, this, hd]
  · simp [beq_eq_false_iff_ne.mpr h]

/-! ## C3: ranked lists are sorted and stable -/

/-- C3. Every ranked list in the Segment Aggregator's output is in
non-decreasing order of mean adjusted time, and the records sharing any fixed
mean adjusted time appear in the relative order of the caller-supplied
tracked-driver list (the sort is stable). -/
theorem segment_ranking_sorted_stable (adjusted_df : List AdjustedLap)
    (segments : List Segment) (target_drivers : List String)
    (name : String) (results : List PerformanceMetrics)
    (h : (name, results) ∈
      analyze_segment_performance adjusted_df segments target_drivers) :
    results.Pairwise (fun a b => a.avg_adjusted_time ≤ b.avg_adjusted_time) ∧
    ∀ q : ℚ, ((results.filter (fun r => r.avg_adjusted_time == q)).map
        PerformanceMetrics.driver).Sublist target_drivers := by
  obtain ⟨seg, hseg, heq⟩ := mem_analyze _ _ _ _ h
  have hres : results =
      (driver_performance adjusted_df target_drivers seg).mergeSort perfLE :=
    congrArg Prod.snd heq
  constructor
  · rw [hres]
    exact analyze_one_sorted adjusted_df target_drivers seg
  · intro q
    rw [hres, filter_mergeSort_avg]
    exact ((List.filter_sublist _).map _).trans
      (driver_performance_drivers adjusted_df target_drivers seg)

/-- Witness for C3 on the concrete example table. -/
theorem segment_ranking_sorted_stable_witness :
    exResults.Pairwise (fun a b => a.avg_adjusted_time ≤ b.avg_adjusted_time) ∧
    ((exResults.filter (fun r => r.avg_adjusted_time == (101 : ℚ))).map
        PerformanceMetrics.driver).Sublist exTDS :=
  ⟨(segment_ranking_sorted_stable exADF define_race_segments exTDS
      "Early Wet Chaos" exResults (by with_unfolding_all decide)).1,
   (segment_ranking_sorted_stable exADF define_race_segments exTDS
      "Early Wet Chaos" exResults (by with_unfolding_all decide)).2 101⟩

/-! ## C4: record existence iff the minimum-sample threshold is met -/

/-- C4. For a tracked driver, a record for the (segment, driver) pair
exists in the segment's ranked list iff the driver has at least
`MIN_LAPS_FOR_ANALYSIS` adjusted laps whose lap number lies in the segment's
range; consequently every record in every segment's output has
`lap_count ≥ MIN_LAPS_FOR_ANALYSIS`. -/
theorem segment_record_iff_min_laps (adjusted_df : List AdjustedLap)
    (segments : List Segment) (target_drivers : List String)
    (segment : Segment) (d : String) (hd : d ∈ target_drivers) :
    ((∃ r ∈ (analyze_one_segment adjusted_df target_drivers segment).2,
        r.driver = d) ↔
      MIN_LAPS_FOR_ANALYSIS ≤ (qualifyingLaps adjusted_df segment d).length) ∧
    (∀ p ∈ analyze_segment_performance adjusted_df segments target_drivers,
      ∀ r ∈ p.2, MIN_LAPS_FOR_ANALYSIS ≤ r.lap_count) := by
  constructor
  · constructor
    · rintro ⟨r, hr, hrd⟩
      have hr' := List.mem_mergeSort.mp hr
      obtain ⟨d', hd', hlen, rfl⟩ := (mem_driver_performance _ _ _ _).mp hr'
      have hded : d' = d := hrd
      subst hded
      rwa [driverLaps_segmentData _ _ _ d' hd'] at hlen
    · intro hlen
      refine ⟨perfMetrics d
        (driverLaps (segmentData adjusted_df segment target_drivers) d),
        ?_, rfl⟩
      apply List.mem_mergeSort.mpr
      apply (mem_driver_performance _ _ _ _).mpr
      exact ⟨d, hd, by rwa [driverLaps_segmentData _ _ _ d hd], rfl⟩
  · intro p hp r hr
    obtain ⟨seg, hseg, rfl⟩ := mem_analyze _ _ _ _ hp
    have hr' := List.mem_mergeSort.mp hr
    obtain ⟨d', hd', hlen, rfl⟩ := (mem_driver_performance _ _ _ _).mp hr'
    exact hlen

/-- Witness for C4: NOR has three qualifying laps in the first segment and a
record exists for it. -/
theorem segment_record_iff_min_laps_witness :
    (∃ r ∈ (analyze_one_segment exADF exTDS exSeg1).2, r.driver = "NOR") ∧
    MIN_LAPS_FOR_ANALYSIS ≤ (qualifyingLaps exADF exSeg1 "NOR").length :=
  ⟨(segment_record_iff_min_laps exADF define_race_segments exTDS exSeg1 "NOR"
      (by with_unfolding_all decide)).1.mpr (by with_unfolding_all decide),
   by with_unfolding_all decide⟩

/-! ## C8: segments with no qualifying driver -/

/-- When no tracked driver reaches the threshold the unsorted record list is
already empty. -/
theorem driver_performance_eq_nil (adjusted_df : List AdjustedLap)
    (target_drivers : List String) (segment : Segment)
    (h : ∀ d ∈ target_drivers,
      (driverLaps (segmentData adjusted_df segment target_drivers) d).length <
        MIN_LAPS_FOR_ANALYSIS) :
    driver_performance adjusted_df target_drivers segment = [] := by
  apply List.filterMap_eq_nil_iff.mpr
  intro d hd
  show (if MIN_LAPS_FOR_ANALYSIS ≤
      (driverLaps (segmentData adjusted_df segment target_drivers) d).length
    then some (perfMetrics d
      (driverLaps (segmentData adjusted_df segment target_drivers) d))
    else none) = none
  exact if_neg (not_le.mpr (h d hd))

/-- C8. A segment in which no tracked driver reaches the minimum-sample
threshold is mapped to the empty list, and on the empty adjusted-lap table
every segment is mapped to the empty list; neither situation is an error. -/
theorem empty_segment_results (adjusted_df : List AdjustedLap)
    (segments : List Segment) (target_drivers : List String) (segment : Segment)
    (h : ∀ d ∈ target_drivers,
      (driverLaps (segmentData adjusted_df segment target_drivers) d).length <
        MIN_LAPS_FOR_ANALYSIS) :
    (analyze_one_segment adjusted_df target_drivers segment).2 = [] ∧
    ∀ p ∈ analyze_segment_performance ([] : List AdjustedLap) segments
        target_drivers, p.2 = [] := by
  constructor
  · show (driver_performance adjusted_df target_drivers segment).mergeSort perfLE
      = []
    rw [driver_performance_eq_nil adjusted_df target_drivers segment h]
    simp
  · intro p hp
    obtain ⟨seg, hseg, rfl⟩ := mem_analyze _ _ _ _ hp
    show (driver_performance [] target_drivers seg).mergeSort perfLE = []
    rw [driver_performance_eq_nil]
    · simp
    · intro d hd
      simp [driverLaps, segmentData, MIN_LAPS_FOR_ANALYSIS]

/-- Witness for C8: in the second segment nobody in the example drives, so its
ranked list is empty; the empty table yields empty lists throughout. -/
theorem empty_segment_results_witness :
    (analyze_one_segment exADF exTDS exSeg2).2 = [] ∧
    ∀ p ∈ analyze_segment_performance ([] : List AdjustedLap)
        define_race_segments exTDS, p.2 = [] :=
  empty_segment_results exADF define_race_segments exTDS exSeg2
    (by with_unfolding_all decide)

/-! ## General lemmas about the Trend Summarizer -/

/-- Appending an entry for driver `d0` extends exactly `d0`'s evolution list. -/
theorem lookupD_addEntry (acc : List (String × List EvolutionEntry))
    (d0 d : String) (e : EvolutionEntry) :
    lookupD (addEntry acc d0 e) d
      = if d0 = d then lookupD acc d ++ [e] else lookupD acc d := by
  induction acc with
  | nil =>
    by_cases h : d0 = d <;>
      simp [addEntry, lookupD, List.find?_cons, h]
  | cons a rest ih =>
    rcases a with ⟨k, es⟩
    by_cases hk : k = d0
    · subst hk
      by_cases hd : k = d <;>
        simp [addEntry, lookupD, List.find?_cons, hd]
    · by_cases hd : k = d
      · subst hd
        have hne : ¬ d0 = k := fun hcontra => hk hcontra.symm
        simp [addEntry, lookupD, List.find?_cons, hk, hne]
      · simp only [addEntry, if_neg hk]
        have lk : ∀ acc2 : List (String × List EvolutionEntry),
            lookupD ((k, es) :: acc2) d = lookupD acc2 d := by
          intro acc2
          simp [lookupD, List.find?_cons, beq_eq_false_iff_ne.mpr hd]
        rw [lk, lk, ih]

/-- Folding a list of (driver, entry) pairs appends, per driver, exactly that
driver's entries in order. -/
theorem lookupD_foldl_addEntry (ps : List (String × EvolutionEntry))
    (acc : List (String × List EvolutionEntry)) (d : String) :
    lookupD (ps.foldl (fun a q => addEntry a q.1 q.2) acc) d
      = lookupD acc d ++ entriesFor d ps := by
  induction ps generalizing acc with
  | nil => simp [entriesFor]
  | cons q rest ih =>
    rw [List.foldl_cons, ih, lookupD_addEntry]
    by_cases h : q.1 = d <;>
      simp [entriesFor, List.filterMap_cons, h, List.append_assoc]

/-- Characterization of the Trend Summarizer's output: a driver's evolution
list is the concatenation, over the segment results in order, of the entries
generated for that driver. -/
theorem lookupD_generate (sr : List (String × List PerformanceMetrics))
    (d : String) :
    lookupD (generate_performance_summary sr) d
      = sr.flatMap (fun p => entriesFor d (segmentEntryPairs p.1 p.2)) := by
  have main : ∀ (l : List (String × List PerformanceMetrics))
      (acc : List (String × List EvolutionEntry)),
      lookupD (l.foldl (fun acc p =>
        (segmentEntryPairs p.1 p.2).foldl (fun a q => addEntry a q.1 q.2) acc) acc) d
        = lookupD acc d ++
          l.flatMap (fun p => entriesFor d (segmentEntryPairs p.1 p.2)) := by
    intro l
    induction l with
    | nil => simp
    | cons p rest ih =>
      intro acc
      rw [List.foldl_cons, ih, lookupD_foldl_addEntry, List.flatMap_cons,
        List.append_assoc]
  simpa [lookupD, generate_performance_summary] using main sr []

/-! ## C5: rank and gap of each ranked entry -/

/-- C5. For every segment result list in the aggregator's output and every
index `i` into it, the Trend Summarizer records, for the driver ranked at `i`,
an entry with that segment's name, rank `i + 1`, and gap equal to that record's
mean adjusted time minus the first record's; the gap is non-negative, and at
`i = 0` it is exactly `0`. -/
theorem evolution_rank_and_gap (adjusted_df : List AdjustedLap)
    (segments : List Segment) (target_drivers : List String)
    (name : String) (results : List PerformanceMetrics)
    (h : (name, results) ∈
      analyze_segment_performance adjusted_df segments target_drivers)
    (i : Nat) (hi : i < results.length) :
    ({ segment := name, position := i + 1,
       gap_to_leader := (results.get ⟨i, hi⟩).avg_adjusted_time -
         (results.get ⟨0, Nat.lt_of_le_of_lt (Nat.zero_le i) hi⟩).avg_adjusted_time }
      : EvolutionEntry)
      ∈ lookupD (generate_performance_summary
          (analyze_segment_performance adjusted_df segments target_drivers))
          ((results.get ⟨i, hi⟩).driver) ∧
    0 ≤ (results.get ⟨i, hi⟩).avg_adjusted_time -
        (results.get ⟨0, Nat.lt_of_le_of_lt (Nat.zero_le i) hi⟩).avg_adjusted_time ∧
    (i = 0 → (results.get ⟨i, hi⟩).avg_adjusted_time -
        (results.get ⟨0, Nat.lt_of_le_of_lt (Nat.zero_le i) hi⟩).avg_adjusted_time
        = 0) := by
  have h0 : 0 < results.length := Nat.lt_of_le_of_lt (Nat.zero_le i) hi
  refine ⟨?_, ?_, ?_⟩
  · rw [lookupD_generate]
    apply List.mem_flatMap.mpr
    refine ⟨(name, results), h, ?_⟩
    rcases results with _ | ⟨r0, rest⟩
    · simp at hi
    · simp only [segmentEntryPairs, entriesFor, List.filterMap_map]
      apply List.mem_filterMap.mpr
      refine ⟨(i, (r0 :: rest).get ⟨i, hi⟩), ?_, ?_⟩
      · apply List.mem_enum_iff_getElem?.mpr
        simp [List.getElem?_eq_getElem hi]
      · simp [Function.comp]
  · obtain ⟨seg, hseg, heq⟩ := mem_analyze _ _ _ _ h
    have hres : results =
        (driver_performance adjusted_df target_drivers seg).mergeSort perfLE :=
      congrArg Prod.snd heq
    have hsorted : results.Pairwise
        (fun a b => a.avg_adjusted_time ≤ b.avg_adjusted_time) := by
      rw [hres]
      exact analyze_one_sorted adjusted_df target_drivers seg
    rcases Nat.eq_zero_or_pos i with rfl | hpos
    · simp
    · have hle := (List.pairwise_iff_get.mp hsorted) ⟨0, h0⟩ ⟨i, hi⟩
        (Fin.mk_lt_mk.mpr hpos)
      linarith
  · intro hzero
    subst hzero
    simp

/-- Witness for C5: PIA is ranked second in the first example segment with a
3-second gap to NOR. -/
theorem evolution_rank_and_gap_witness :
    ({ segment := "Early Wet Chaos", position := 1 + 1,
       gap_to_leader := (exResults.get ⟨1, by decide⟩).avg_adjusted_time -
         (exResults.get ⟨0, by decide⟩).avg_adjusted_time } : EvolutionEntry)
      ∈ lookupD (generate_performance_summary
          (analyze_segment_performance exADF define_race_segments exTDS))
          ((exResults.get ⟨1, by decide⟩).driver) ∧
    0 ≤ (exResults.get ⟨1, by decide⟩).avg_adjusted_time -
        (exResults.get ⟨0, by decide⟩).avg_adjusted_time :=
  have h := evolution_rank_and_gap exADF define_race_segments exTDS
    "Early Wet Chaos" exResults (by with_unfolding_all decide) 1 (by decide)
  ⟨h.1, h.2.1⟩

/-! ## General lemmas for C6 -/

/-- Inserting a fresh key into the dict appends it at the end. -/
theorem dictInsert_fresh {β : Type} (acc : List (String × β)) (k : String)
    (v : β) (h : ∀ p ∈ acc, p.1 ≠ k) : dictInsert acc k v = acc ++ [(k, v)] := by
  induction acc with
  | nil => rfl
  | cons a rest ih =>
    rcases a with ⟨k0, v0⟩
    have hk0 : k0 ≠ k := h (k0, v0) (List.mem_cons_self _ _)
    simp only [dictInsert, if_neg hk0, List.cons_append, List.cons.injEq, true_and]
    exact ih (fun p hp => h p (List.mem_cons_of_mem _ hp))

/-- With pairwise distinct segment names the aggregator's dict is just the
list of per-segment results in segment order. -/
theorem analyze_eq_map (adjusted_df : List AdjustedLap) (segments : List Segment)
    (target_drivers : List String)
    (hnames : (segments.map Segment.name).Nodup) :
    analyze_segment_performance adjusted_df segments target_drivers
      = segments.map (analyze_one_segment adjusted_df target_drivers) := by
  have main : ∀ (segs : List Segment) (acc : List (String × List PerformanceMetrics)),
      (segs.map Segment.name).Nodup →
      (∀ p ∈ acc, ∀ seg ∈ segs, p.1 ≠ seg.name) →
      segs.foldl (fun results segment =>
          dictInsert results segment.name
            (analyze_one_segment adjusted_df target_drivers segment).2) acc
        = acc ++ segs.map (analyze_one_segment adjusted_df target_drivers) := by
    intro segs
    induction segs with
    | nil => simp
    | cons s rest ih =>
      intro acc hnd hdisj
      have hnd' : s.name ∉ rest.map Segment.name ∧ (rest.map Segment.name).Nodup := by
        rw [List.map_cons] at hnd
        exact List.nodup_cons.mp hnd
      rw [List.foldl_cons, dictInsert_fresh _ _ _
        (fun p hp => hdisj p hp s (List.mem_cons_self _ _))]
      rw [ih _ hnd'.2 ?side]
      · simp [List.append_assoc, analyze_one_segment]
      case side =>
        intro p hp seg hseg
        rcases List.mem_append.mp hp with hp' | hp'
        · exact hdisj p hp' seg (List.mem_cons_of_mem _ hseg)
        · simp only [List.mem_singleton] at hp'
          subst hp'
          intro he
          have hs : s.name = seg.name := he
          exact hnd'.1 (by rw [hs]; exact List.mem_map_of_mem Segment.name hseg)
  have := main segments [] hnames (by simp)
  simpa [analyze_segment_performance] using this

/-- The segment names contributed to one driver's evolution by one segment's
result list: one copy of the segment name per record of that driver. -/
theorem entriesFor_map_segment (d name : String)
    (results : List PerformanceMetrics) :
    (entriesFor d (segmentEntryPairs name results)).map EvolutionEntry.segment
      = List.replicate (results.countP (fun r => r.driver == d)) name := by
  rcases results with _ | ⟨r0, rest⟩
  · simp [segmentEntryPairs, entriesFor]
  · simp only [segmentEntryPairs, entriesFor, List.filterMap_map]
    have main : ∀ l : List (ℕ × PerformanceMetrics),
        ((l.filterMap (fun p => if p.2.driver = d then
            some ({ segment := name, position := p.1 + 1,
                    gap_to_leader := p.2.avg_adjusted_time - r0.avg_adjusted_time }
                  : EvolutionEntry) else none)).map EvolutionEntry.segment)
          = List.replicate (l.countP (fun p => p.2.driver == d)) name := by
      intro l
      induction l with
      | nil => simp
      | cons p rest2 ih =>
        by_cases h : p.2.driver = d <;>
          simp [List.filterMap_cons, List.countP_cons, h, ih, List.replicate_succ]
    have hcnt : (r0 :: rest).enum.countP (fun p => p.2.driver == d)
        = (r0 :: rest).countP (fun r => r.driver == d) := by
      have := List.countP_map (fun r : PerformanceMetrics => r.driver == d)
        Prod.snd (r0 :: rest).enum
      rw [List.enum_map_snd] at this
      exact this.symm
    rw [← hcnt, ← main]
    rfl

/-- Counting, in a key-tagged `filterMap` over a duplicate-free list, the
outputs carrying one fixed key. -/
theorem countP_filterMap_key (f : String → Option PerformanceMetrics)
    (hf : ∀ x r, f x = some r → r.driver = x) (l : List String) (hl : l.Nodup)
    (d : String) :
    (l.filterMap f).countP (fun r => r.driver == d)
      = if d ∈ l ∧ (f d).isSome then 1 else 0 := by
  induction l with
  | nil => simp
  | cons a rest ih =>
    have hnd := List.nodup_cons.mp hl
    rcases hfa : f a with _ | r
    · rw [List.filterMap_cons, hfa, ih hnd.2]
      by_cases had : d = a
      · subst had
        simp [hfa]
      · simp [had]
    · rw [List.filterMap_cons, hfa, List.countP_cons, ih hnd.2]
      have hra : r.driver = a := hf a r hfa
      by_cases had : d = a
      · subst had
        simp [hra, hfa, hnd.1]
      · have : (r.driver == d) = false :=
          beq_eq_false_iff_ne.mpr (by rw [hra]; exact fun he => had he.symm)
        simp [this, had]

/-- One segment's contribution to a driver's evolution: exactly one entry when
the driver is tracked and reaches the minimum-sample threshold, none
otherwise. -/
theorem seg_contribution (adjusted_df : List AdjustedLap)
    (target_drivers : List String) (seg : Segment) (d : String)
    (htds : target_drivers.Nodup) :
    (entriesFor d (segmentEntryPairs
        (analyze_one_segment adjusted_df target_drivers seg).1
        (analyze_one_segment adjusted_df target_drivers seg).2)).map
      EvolutionEntry.segment
      = if d ∈ target_drivers ∧ MIN_LAPS_FOR_ANALYSIS ≤
            (qualifyingLaps adjusted_df seg d).length
        then [seg.name] else [] := by
  rw [entriesFor_map_segment]
  have hperm : ((driver_performance adjusted_df target_drivers seg).mergeSort
      perfLE).countP (fun r => r.driver == d)
      = (driver_performance adjusted_df target_drivers seg).countP
          (fun r => r.driver == d) :=
    List.Perm.countP_eq _ (List.mergeSort_perm _ _)
  have hkey := countP_filterMap_key
    (fun x => if MIN_LAPS_FOR_ANALYSIS ≤
        (driverLaps (segmentData adjusted_df seg target_drivers) x).length
      then some (perfMetrics x
        (driverLaps (segmentData adjusted_df seg target_drivers) x))
      else none)
    (fun x r hx => by
      rcases Option.ite_none_right_eq_some.mp hx with ⟨-, hx'⟩
      cases Option.some.inj hx'
      rfl)
    target_drivers htds d
  show List.replicate (((driver_performance adjusted_df target_drivers seg).mergeSort
      perfLE).countP (fun r => r.driver == d)) seg.name = _
  rw [hperm]
  rw [show driver_performance adjusted_df target_drivers seg
      = target_drivers.filterMap (fun x => if MIN_LAPS_FOR_ANALYSIS ≤
          (driverLaps (segmentData adjusted_df seg target_drivers) x).length
        then some (perfMetrics x
          (driverLaps (segmentData adjusted_df seg target_drivers) x))
        else none) from rfl]
  rw [hkey]
  by_cases hd : d ∈ target_drivers
  · by_cases hlen : MIN_LAPS_FOR_ANALYSIS ≤
        (driverLaps (segmentData adjusted_df seg target_drivers) d).length
    · have hA : d ∈ target_drivers ∧
          (if MIN_LAPS_FOR_ANALYSIS ≤
              (driverLaps (segmentData adjusted_df seg target_drivers) d).length
            then some (perfMetrics d
              (driverLaps (segmentData adjusted_df seg target_drivers) d))
            else none).isSome = true := ⟨hd, by rw [if_pos hlen]; rfl⟩
      have hB : d ∈ target_drivers ∧ MIN_LAPS_FOR_ANALYSIS ≤
          (qualifyingLaps adjusted_df seg d).length :=
        ⟨hd, by rwa [← driverLaps_segmentData _ _ _ d hd]⟩
      rw [if_pos hA, if_pos hB]
      rfl
    · have hA : ¬ (d ∈ target_drivers ∧
          (if MIN_LAPS_FOR_ANALYSIS ≤
              (driverLaps (segmentData adjusted_df seg target_drivers) d).length
            then some (perfMetrics d
              (driverLaps (segmentData adjusted_df seg target_drivers) d))
            else none).isSome = true) := by
        rintro ⟨-, h2⟩
        rw [if_neg hlen] at h2
        simp at h2
      have hB : ¬ (d ∈ target_drivers ∧ MIN_LAPS_FOR_ANALYSIS ≤
          (qualifyingLaps adjusted_df seg d).length) := by
        rintro ⟨-, h2⟩
        exact hlen (by rwa [driverLaps_segmentData _ _ _ d hd])
      rw [if_neg hA, if_neg hB]
      rfl
  · rw [if_neg (fun hc => hd hc.1), if_neg (fun hc => hd hc.1)]
    rfl

/-- Concatenating the per-segment contributions filters the qualified
segments. -/
theorem flatMap_contributions (adjusted_df : List AdjustedLap)
    (target_drivers : List String) (d : String) (htds : target_drivers.Nodup)
    (segs : List Segment) :
    ((segs.map (analyze_one_segment adjusted_df target_drivers)).flatMap
        (fun p => entriesFor d (segmentEntryPairs p.1 p.2))).map
      EvolutionEntry.segment
      = (segs.filter (fun seg => decide (d ∈ target_drivers ∧
          MIN_LAPS_FOR_ANALYSIS ≤ (qualifyingLaps adjusted_df seg d).length))).map
          Segment.name := by
  induction segs with
  | nil => simp
  | cons s rest ih =>
    rw [List.map_cons, List.flatMap_cons, List.map_append, ih, List.filter_cons]
    rw [seg_contribution adjusted_df target_drivers s d htds]
    by_cases h : d ∈ target_drivers ∧ MIN_LAPS_FOR_ANALYSIS ≤
        (qualifyingLaps adjusted_df s d).length <;>
      simp [h]

/-! ## C6: one evolution entry per qualified segment, in order -/

/-- C6. With pairwise distinct segment names and a duplicate-free tracked
driver list, a driver's evolution sequence references exactly the segments in
which the driver qualified (is tracked and has at least
`MIN_LAPS_FOR_ANALYSIS` adjusted laps in the segment's range), one entry per
such segment, in the order the segments were defined. -/
theorem evolution_one_entry_per_qualified_segment (adjusted_df : List AdjustedLap)
    (segments : List Segment) (target_drivers : List String) (d : String)
    (hnames : (segments.map Segment.name).Nodup) (htds : target_drivers.Nodup) :
    (lookupD (generate_performance_summary
        (analyze_segment_performance adjusted_df segments target_drivers)) d).map
      EvolutionEntry.segment
      = (segments.filter (fun seg => decide (d ∈ target_drivers ∧
          MIN_LAPS_FOR_ANALYSIS ≤ (qualifyingLaps adjusted_df seg d).length))).map
          Segment.name := by
  rw [lookupD_generate, analyze_eq_map adjusted_df segments target_drivers hnames]
  exact flatMap_contributions adjusted_df target_drivers d htds segments

/-- Witness for C6: PIA qualifies in the first and third example segments but
not the second, so its evolution has exactly two entries, in chronological
order. -/
theorem evolution_one_entry_per_qualified_segment_witness :
    ((lookupD (generate_performance_summary
        (analyze_segment_performance exADF define_race_segments exTDS)) "PIA").map
      EvolutionEntry.segment
      = (define_race_segments.filter (fun seg => decide ("PIA" ∈ exTDS ∧
          MIN_LAPS_FOR_ANALYSIS ≤ (qualifyingLaps exADF seg "PIA").length))).map
          Segment.name) ∧
    (lookupD (generate_performance_summary
        (analyze_segment_performance exADF define_race_segments exTDS)) "PIA").map
      EvolutionEntry.segment = ["Early Wet Chaos", "Drying Phase"] :=
  ⟨evolution_one_entry_per_qualified_segment exADF define_race_segments exTDS
      "PIA" (by with_unfolding_all decide) (by with_unfolding_all decide),
   by with_unfolding_all decide⟩

/-! ## General lemmas for the constant-offset scenario -/

/-- A `filterMap` that succeeds everywhere is a `map`. -/
theorem filterMap_eq_map_of_some {α β : Type} (f : α → Option β) (g : α → β)
    (l : List α) (h : ∀ x ∈ l, f x = some (g x)) : l.filterMap f = l.map g := by
  induction l with
  | nil => rfl
  | cons x rest ih =>
    simp [List.filterMap_cons, h x (List.mem_cons_self _ _),
      ih (fun y hy => h y (List.mem_cons_of_mem _ hy))]

/-- Adding a constant to every element of a list adds `length` times the
constant to its sum. -/
theorem sum_map_add_const (xs : List ℚ) (k : ℚ) :
    (xs.map (fun x => x + k)).sum = xs.sum + xs.length * k := by
  induction xs with
  | nil => simp
  | cons x rest ih =>
    simp only [List.map_cons, List.sum_cons, List.length_cons, ih]
    push_cast
    ring

/-- Shifting every element of a nonempty list shifts its mean. -/
theorem ratMean_map_add (xs : List ℚ) (k : ℚ) (h : xs ≠ []) :
    ratMean (xs.map (fun x => x + k)) = ratMean xs + k := by
  have hpos : 0 < xs.length := List.length_pos.mpr h
  have hlen : (xs.length : ℚ) ≠ 0 := by
    exact_mod_cast Nat.pos_iff_ne_zero.mp hpos
  rw [ratMean, ratMean, List.length_map, sum_map_add_const, add_div,
    mul_div_cancel_left₀ _ hlen]

/-! ## C9: constant raw-time offsets cancel through the pipeline -/

/-- C9. Three distinct drivers with the same laps, compound and tire age,
whose raw times differ by constant offsets `0 < o2 < o3`, all inside the
plausibility window and inside one segment, are ranked in raw-time order, and
their reported gaps to the leader are exactly the raw-time offsets: the
compound and age adjustments cancel. -/
theorem constant_offset_scenario (seg : Segment) (d1 d2 d3 c : String) (a : ℚ)
    (base : List (Nat × ℚ)) (o2 o3 : ℚ)
    (hlen : MIN_LAPS_FOR_ANALYSIS ≤ base.length)
    (hd12 : d1 ≠ d2) (hd13 : d1 ≠ d3) (hd23 : d2 ≠ d3)
    (ho2 : 0 < o2) (ho23 : o2 < o3)
    (hwin : ∀ p ∈ base, 80 ≤ p.2 ∧ p.2 + o3 ≤ 200)
    (hseg : ∀ p ∈ base, seg.containsLap p.1 = true) :
    (analyze_one_segment (calculate_tire_adjusted_times
        (offsetLaps d1 0 c a base ++ offsetLaps d2 o2 c a base ++
          offsetLaps d3 o3 c a base)) [d1, d2, d3] seg).2.map
      PerformanceMetrics.driver = [d1, d2, d3] ∧
    lookupD (generate_performance_summary (analyze_segment_performance
        (calculate_tire_adjusted_times (offsetLaps d1 0 c a base ++
          offsetLaps d2 o2 c a base ++ offsetLaps d3 o3 c a base))
        [seg] [d1, d2, d3])) d1 = [⟨seg.name, 1, 0⟩] ∧
    lookupD (generate_performance_summary (analyze_segment_performance
        (calculate_tire_adjusted_times (offsetLaps d1 0 c a base ++
          offsetLaps d2 o2 c a base ++ offsetLaps d3 o3 c a base))
        [seg] [d1, d2, d3])) d2 = [⟨seg.name, 2, o2⟩] ∧
    lookupD (generate_performance_summary (analyze_segment_performance
        (calculate_tire_adjusted_times (offsetLaps d1 0 c a base ++
          offsetLaps d2 o2 c a base ++ offsetLaps d3 o3 c a base))
        [seg] [d1, d2, d3])) d3 = [⟨seg.name, 3, o3⟩] := by
  have ho3 : (0 : ℚ) < o3 := lt_trans ho2 ho23
  have hbase_ne : base ≠ [] := by
    intro hcontra
    rw [hcontra] at hlen
    simp [MIN_LAPS_FOR_ANALYSIS] at hlen
  -- the Adjustment Engine keeps every lap of every block
  have hcalcB : ∀ (d : String) (o : ℚ), 0 ≤ o → o ≤ o3 →
      (offsetLaps d o c a base).filterMap adjustLap = offsetAdj d o c a base := by
    intro d o ho0 hoo3
    rw [offsetLaps, List.filterMap_map, offsetAdj]
    apply filterMap_eq_map_of_some
    intro p hp
    obtain ⟨hp1, hp2⟩ := hwin p hp
    show adjustLap ⟨d, p.1, some (p.2 + o), some c, some a⟩ = some _
    have hcond : ¬ (p.2 + o < OUTLIER_THRESHOLD_MIN ∨
        p.2 + o > OUTLIER_THRESHOLD_MAX) := by
      rintro (hcontra | hcontra) <;>
        simp only [OUTLIER_THRESHOLD_MIN, OUTLIER_THRESHOLD_MAX] at hcontra <;>
        linarith
    simp only [adjustLap]
    rw [if_neg hcond]
  have hdf : calculate_tire_adjusted_times (offsetLaps d1 0 c a base ++
      offsetLaps d2 o2 c a base ++ offsetLaps d3 o3 c a base)
      = offsetAdj d1 0 c a base ++ offsetAdj d2 o2 c a base ++
        offsetAdj d3 o3 c a base := by
    rw [calculate_tire_adjusted_times, List.filterMap_append, List.filterMap_append,
      hcalcB d1 0 le_rfl (le_of_lt ho3), hcalcB d2 o2 (le_of_lt ho2) (le_of_lt ho23),
      hcalcB d3 o3 (le_of_lt ho3) le_rfl]
  rw [hdf]
  -- every row of the table survives the segment/tracked-driver filter
  have hrowdrv : ∀ (d : String) (o : ℚ) (r : AdjustedLap),
      r ∈ offsetAdj d o c a base → r.driver = d ∧ seg.containsLap r.lapNumber = true := by
    intro d o r hr
    obtain ⟨p, hp, rfl⟩ := List.mem_map.mp hr
    exact ⟨rfl, hseg p hp⟩
  have hsegdata : segmentData (offsetAdj d1 0 c a base ++ offsetAdj d2 o2 c a base ++
      offsetAdj d3 o3 c a base) seg [d1, d2, d3]
      = offsetAdj d1 0 c a base ++ offsetAdj d2 o2 c a base ++
        offsetAdj d3 o3 c a base := by
    apply List.filter_eq_self.mpr
    intro r hr
    have hcases : r.driver = d1 ∨ r.driver = d2 ∨ r.driver = d3 := by
      rcases List.mem_append.mp hr with hr' | hr'
      · rcases List.mem_append.mp hr' with hr'' | hr''
        · exact Or.inl (hrowdrv d1 0 r hr'').1
        · exact Or.inr (Or.inl (hrowdrv d2 o2 r hr'').1)
      · exact Or.inr (Or.inr (hrowdrv d3 o3 r hr').1)
    have hnum : seg.containsLap r.lapNumber = true := by
      rcases List.mem_append.mp hr with hr' | hr'
      · rcases List.mem_append.mp hr' with hr'' | hr''
        · exact (hrowdrv d1 0 r hr'').2
        · exact (hrowdrv d2 o2 r hr'').2
      · exact (hrowdrv d3 o3 r hr').2
    rw [hnum, Bool.true_and]
    have : r.driver ∈ [d1, d2, d3] := by
      rcases hcases with h | h | h <;> simp [h]
    exact List.elem_eq_true_of_mem this
  -- each driver's rows are exactly its block
  have hfilterBlock : ∀ (d d' : String) (o : ℚ),
      (offsetAdj d o c a base).filter (fun r => r.driver == d')
        = if d = d' then offsetAdj d o c a base else [] := by
    intro d d' o
    by_cases hdd : d = d'
    · rw [if_pos hdd]
      apply List.filter_eq_self.mpr
      intro r hr
      rw [(hrowdrv d o r hr).1, hdd]
      exact beq_self_eq_true d'
    · rw [if_neg hdd]
      apply List.filter_eq_nil_iff.mpr
      intro r hr
      rw [(hrowdrv d o r hr).1]
      simp [hdd]
  have hdl1 : driverLaps (offsetAdj d1 0 c a base ++ offsetAdj d2 o2 c a base ++
      offsetAdj d3 o3 c a base) d1 = offsetAdj d1 0 c a base := by
    rw [driverLaps, List.filter_append, List.filter_append,
      hfilterBlock d1 d1 0, hfilterBlock d2 d1 o2, hfilterBlock d3 d1 o3,
      if_pos rfl, if_neg (Ne.symm hd12), if_neg (Ne.symm hd13)]
    simp
  have hdl2 : driverLaps (offsetAdj d1 0 c a base ++ offsetAdj d2 o2 c a base ++
      offsetAdj d3 o3 c a base) d2 = offsetAdj d2 o2 c a base := by
    rw [driverLaps, List.filter_append, List.filter_append,
      hfilterBlock d1 d2 0, hfilterBlock d2 d2 o2, hfilterBlock d3 d2 o3,
      if_neg hd12, if_pos rfl, if_neg (Ne.symm hd23)]
    simp
  have hdl3 : driverLaps (offsetAdj d1 0 c a base ++ offsetAdj d2 o2 c a base ++
      offsetAdj d3 o3 c a base) d3 = offsetAdj d3 o3 c a base := by
    rw [driverLaps, List.filter_append, List.filter_append,
      hfilterBlock d1 d3 0, hfilterBlock d2 d3 o2, hfilterBlock d3 d3 o3,
      if_neg hd13, if_neg hd23, if_pos rfl]
    simp
  have hlenB : ∀ (d : String) (o : ℚ), (offsetAdj d o c a base).length = base.length := by
    intro d o
    simp [offsetAdj]
  -- the unsorted record list
  have hperf : driver_performance (offsetAdj d1 0 c a base ++
      offsetAdj d2 o2 c a base ++ offsetAdj d3 o3 c a base) [d1, d2, d3] seg
      = [perfMetrics d1 (offsetAdj d1 0 c a base),
         perfMetrics d2 (offsetAdj d2 o2 c a base),
         perfMetrics d3 (offsetAdj d3 o3 c a base)] := by
    simp only [driver_performance, hsegdata, List.filterMap_cons, List.filterMap_nil,
      hdl1, hdl2, hdl3, hlenB, if_pos hlen]
  -- the mean of each block
  have havg : ∀ (d : String) (o : ℚ),
      (perfMetrics d (offsetAdj d o c a base)).avg_adjusted_time
        = ratMean (base.map Prod.snd) + (o + (tirePerfGetD c + a * DEGRADATION_RATE)) := by
    intro d o
    show ratMean ((offsetAdj d o c a base).map AdjustedLap.adjustedTime) = _
    have h1 : (offsetAdj d o c a base).map AdjustedLap.adjustedTime
        = (base.map Prod.snd).map
            (fun x => x + (o + (tirePerfGetD c + a * DEGRADATION_RATE))) := by
      simp only [offsetAdj, List.map_map]
      apply List.map_congr_left
      intro p hp
      simp only [Function.comp_apply]
      ring
    rw [h1, ratMean_map_add _ _ (fun hcontra => hbase_ne (by
      rcases base with _ | ⟨q, qs⟩
      · rfl
      · simp at hcontra))]
  -- sortedness of the three records
  have hle12 : perfLE (perfMetrics d1 (offsetAdj d1 0 c a base))
      (perfMetrics d2 (offsetAdj d2 o2 c a base)) = true := by
    simp only [perfLE, havg, decide_eq_true_eq]
    linarith
  have hle13 : perfLE (perfMetrics d1 (offsetAdj d1 0 c a base))
      (perfMetrics d3 (offsetAdj d3 o3 c a base)) = true := by
    simp only [perfLE, havg, decide_eq_true_eq]
    linarith
  have hle23 : perfLE (perfMetrics d2 (offsetAdj d2 o2 c a base))
      (perfMetrics d3 (offsetAdj d3 o3 c a base)) = true := by
    simp only [perfLE, havg, decide_eq_true_eq]
    linarith
  have hsort : (driver_performance (offsetAdj d1 0 c a base ++
      offsetAdj d2 o2 c a base ++ offsetAdj d3 o3 c a base) [d1, d2, d3]
        seg).mergeSort perfLE
      = [perfMetrics d1 (offsetAdj d1 0 c a base),
         perfMetrics d2 (offsetAdj d2 o2 c a base),
         perfMetrics d3 (offsetAdj d3 o3 c a base)] := by
    rw [hperf]
    apply List.mergeSort_of_sorted
    refine List.Pairwise.cons ?_ (List.Pairwise.cons ?_ (List.pairwise_singleton _ _))
    · intro b hb
      rcases List.mem_cons.mp hb with rfl | hb'
      · exact hle12
      · rcases List.mem_singleton.mp hb' with rfl
        exact hle13
    · intro b hb
      rcases List.mem_singleton.mp hb with rfl
      exact hle23
  -- the gaps
  have hgap2 : (perfMetrics d2 (offsetAdj d2 o2 c a base)).avg_adjusted_time -
      (perfMetrics d1 (offsetAdj d1 0 c a base)).avg_adjusted_time = o2 := by
    rw [havg, havg]
    ring
  have hgap3 : (perfMetrics d3 (offsetAdj d3 o3 c a base)).avg_adjusted_time -
      (perfMetrics d1 (offsetAdj d1 0 c a base)).avg_adjusted_time = o3 := by
    rw [havg, havg]
    ring
  -- the aggregator's dict on the single segment
  have hsr : analyze_segment_performance (offsetAdj d1 0 c a base ++
      offsetAdj d2 o2 c a base ++ offsetAdj d3 o3 c a base) [seg] [d1, d2, d3]
      = [(seg.name,
          [perfMetrics d1 (offsetAdj d1 0 c a base),
           perfMetrics d2 (offsetAdj d2 o2 c a base),
           perfMetrics d3 (offsetAdj d3 o3 c a base)])] := by
    show [(seg.name, (driver_performance (offsetAdj d1 0 c a base ++
      offsetAdj d2 o2 c a base ++ offsetAdj d3 o3 c a base) [d1, d2, d3]
        seg).mergeSort perfLE)] = _
    rw [hsort]
  -- the summarizer entries for the single segment
  have hpairs : segmentEntryPairs seg.name
      [perfMetrics d1 (offsetAdj d1 0 c a base),
       perfMetrics d2 (offsetAdj d2 o2 c a base),
       perfMetrics d3 (offsetAdj d3 o3 c a base)]
      = [(d1, ⟨seg.name, 1,
            (perfMetrics d1 (offsetAdj d1 0 c a base)).avg_adjusted_time -
            (perfMetrics d1 (offsetAdj d1 0 c a base)).avg_adjusted_time⟩),
         (d2, ⟨seg.name, 2,
            (perfMetrics d2 (offsetAdj d2 o2 c a base)).avg_adjusted_time -
            (perfMetrics d1 (offsetAdj d1 0 c a base)).avg_adjusted_time⟩),
         (d3, ⟨seg.name, 3,
            (perfMetrics d3 (offsetAdj d3 o3 c a base)).avg_adjusted_time -
            (perfMetrics d1 (offsetAdj d1 0 c a base)).avg_adjusted_time⟩)] := by
    rfl
  refine ⟨?_, ?_, ?_, ?_⟩
  · show ((driver_performance (offsetAdj d1 0 c a base ++
      offsetAdj d2 o2 c a base ++ offsetAdj d3 o3 c a base) [d1, d2, d3]
        seg).mergeSort perfLE).map PerformanceMetrics.driver = [d1, d2, d3]
    rw [hsort]
    rfl
  · rw [hsr, lookupD_generate, List.flatMap_cons, List.flatMap_nil, List.append_nil,
      hpairs, entriesFor, List.filterMap_cons, List.filterMap_cons,
      List.filterMap_cons, List.filterMap_nil]
    rw [if_pos rfl, if_neg (Ne.symm hd12), if_neg (Ne.symm hd13)]
    simp
  · rw [hsr, lookupD_generate, List.flatMap_cons, List.flatMap_nil, List.append_nil,
      hpairs, entriesFor, List.filterMap_cons, List.filterMap_cons,
      List.filterMap_cons, List.filterMap_nil]
    rw [if_neg hd12, if_pos rfl, if_neg (Ne.symm hd23)]
    simp [hgap2]
  · rw [hsr, lookupD_generate, List.flatMap_cons, List.flatMap_nil, List.append_nil,
      hpairs, entriesFor, List.filterMap_cons, List.filterMap_cons,
      List.filterMap_cons, List.filterMap_nil]
    rw [if_neg hd13, if_neg hd23, if_pos rfl]
    simp [hgap3]

/-- Witness for C9: NOR, PIA and VER share three laps of identical compound
and age in the first segment, with raw-time offsets 0, 1 and 2 seconds. -/
theorem constant_offset_scenario_witness :
    (analyze_one_segment (calculate_tire_adjusted_times
        (offsetLaps "NOR" 0 "SOFT" 5 c9Base ++ offsetLaps "PIA" 1 "SOFT" 5 c9Base ++
          offsetLaps "VER" 2 "SOFT" 5 c9Base)) ["NOR", "PIA", "VER"] exSeg1).2.map
      PerformanceMetrics.driver = ["NOR", "PIA", "VER"] ∧
    lookupD (generate_performance_summary (analyze_segment_performance
        (calculate_tire_adjusted_times (offsetLaps "NOR" 0 "SOFT" 5 c9Base ++
          offsetLaps "PIA" 1 "SOFT" 5 c9Base ++ offsetLaps "VER" 2 "SOFT" 5 c9Base))
        [exSeg1] ["NOR", "PIA", "VER"])) "PIA" = [⟨exSeg1.name, 2, 1⟩] :=
  have h := constant_offset_scenario exSeg1 "NOR" "PIA" "VER" "SOFT" 5 c9Base 1 2
    (by with_unfolding_all decide) (by with_unfolding_all decide)
    (by with_unfolding_all decide) (by with_unfolding_all decide)
    (by norm_num) (by norm_num)
    (by intro p hp; fin_cases hp <;> norm_num)
    (by with_unfolding_all decide)
  ⟨h.1, h.2.2.1⟩

end F1
